import Mathlib

/-!
Shallow embedding of the `UsersService` user-directory module
(`src/users/users.service.ts`) together with its DTO types
(`src/users/dto/create-user.dto.ts`, `src/users/dto/update-user.dto.ts`).

The service is CRUD glue over an external persistent store (Prisma) and an
external credential hasher (bcryptjs).  We model the store as an explicit
state value (lists of users and courses) and each service operation as a
function from the state to a result together with the successor state.
-/

namespace Pacelab

/-- Role enumeration, from `create-user.dto.ts` (`export enum Role`). -/
inductive Role where
  | ADMIN
  | INSTRUCTOR
  | STUDENT
deriving DecidableEq, Repr

/-- Status enumeration, from `update-user.dto.ts` (`export enum UserStatus`). -/
inductive UserStatus where
  | ACTIVE
  | INACTIVE
  | BANNED
deriving DecidableEq, Repr

/-- The string value of a `UserStatus` member (the enum is string-valued). -/
def UserStatus.str : UserStatus → String
  | .ACTIVE => "ACTIVE"
  | .INACTIVE => "INACTIVE"
  | .BANNED => "BANNED"

/-- The string values of the status enumeration. -/
def statusStrings : List String := ["ACTIVE", "INACTIVE", "BANNED"]

/-- A lesson record as the queries touch it: id, title, duration and the
explicit integer order value. -/
structure Lesson where
  id : String
  title : String
  duration : Int
  order : Int
deriving DecidableEq, Repr

/-- A module record: id, title, explicit integer order value, owned lessons. -/
structure CModule where
  id : String
  title : String
  order : Int
  lessons : List Lesson
deriving DecidableEq, Repr

/-- A course record: id, title, description, creation time, owned modules. -/
structure Course where
  id : String
  title : String
  description : String
  createdAt : Int
  modules : List CModule
deriving DecidableEq, Repr

/-- A stored user row.  `password` holds the stored hash; `status` is the raw
string stored in the status column (the service writes it through a cast);
`assignedCourseIds` is the user's side of the many-to-many association with
courses. -/
structure User where
  id : String
  name : String
  email : String
  password : String
  role : Role
  status : String
  createdAt : Int
  assignedCourseIds : List String
deriving DecidableEq, Repr

/-- The persistent store state: the user table and the course table (courses
are owned by an external collaborator and only referenced here). -/
structure Store where
  users : List User
  courses : List Course
deriving DecidableEq, Repr

/-- `CreateUserDto` from `create-user.dto.ts`: name, email, password required;
role and assignedCourseIds optional. -/
structure CreateUserDto where
  name : String
  email : String
  password : String
  role : Option Role
  assignedCourseIds : Option (List String)
deriving DecidableEq, Repr

/-- `UpdateUserDto` from `update-user.dto.ts`: every field optional.  `none`
models the key being entirely absent from the request body; the request
validator (`@IsEnum`, `@IsArray`, ...) guarantees present values are
well-typed, which the Lean types encode. -/
structure UpdateUserDto where
  name : Option String
  email : Option String
  password : Option String
  role : Option Role
  status : Option UserStatus
  assignedCourseIds : Option (List String)
deriving DecidableEq, Repr

/-- The `UpdateUserDto` with every key absent: `update(id, {})`. -/
def UpdateUserDto.empty : UpdateUserDto :=
  ⟨none, none, none, none, none, none⟩

/-- Error taxonomy surfaced by the service: `NotFoundException` thrown by the
service itself, and the store-delegated failures (referential integrity on
course connect/set, uniqueness on email). -/
inductive Err where
  | notFound (msg : String)
  | refIntegrity
  | uniqueEmail
deriving DecidableEq, Repr

/-- Modelled from the spec: the external Credential Hasher (bcryptjs) is an
opaque one-way hash with a cost parameter; we model it as a tagged injective
encoding, so the hash is never equal to the plaintext. -/
def bcrypt_hash (plain : String) (cost : Nat) : String :=
  "$2b$" ++ toString cost ++ "$" ++ plain

/-- `prisma.user.findUnique({ where: { id } })`. -/
def lookup (st : Store) (id : String) : Option User :=
  st.users.find? (fun u => decide (u.id = id))

/-- `prisma.user.findUnique({ where: { email } })`. -/
def lookupByEmail (st : Store) (email : String) : Option User :=
  st.users.find? (fun u => decide (u.email = email))

/-- `prisma.course.findUnique({ where: { id } })` on the referenced course
table. -/
def lookupCourse (st : Store) (id : String) : Option Course :=
  st.courses.find? (fun c => decide (c.id = id))

/-- Modelled from the spec: the store's referential-integrity check for
`connect`/`set` on `assignedCourses` — every referenced course id must exist. -/
def coursesExist (st : Store) (ids : List String) : Bool :=
  ids.all (fun cid => (lookupCourse st cid).isSome)

/-- The `{ id, title }` shape of one associated course. -/
structure CourseRef where
  id : String
  title : String
deriving DecidableEq, Repr

/-- The `assignedCourses: { select: { id, title } }` projection of a user's
associated courses. -/
def assignedCourseRefs (st : Store) (u : User) : List CourseRef :=
  (st.courses.filter (fun c => u.assignedCourseIds.contains c.id)).map
    (fun c => ⟨c.id, c.title⟩)

/-- The projection returned by `create`, `findAll`, `findOne` and `update`:
id, name, email, status, createdAt, role, assignedCourses — no password. -/
structure UserView where
  id : String
  name : String
  email : String
  status : String
  createdAt : Int
  role : Role
  assignedCourses : List CourseRef
deriving DecidableEq, Repr

/-- The projection returned by `findByEmail`: it additionally surfaces the
stored password hash (and has no createdAt). -/
structure UserAuthView where
  id : String
  name : String
  email : String
  password : String
  status : String
  role : Role
  assignedCourses : List CourseRef
deriving DecidableEq, Repr

/-- The projection returned by `updateStatus` and `remove`: no
assignedCourses field. -/
structure UserBasicView where
  id : String
  name : String
  email : String
  status : String
  createdAt : Int
  role : Role
deriving DecidableEq, Repr

/-- Build the full projection of a stored user. -/
def userView (st : Store) (u : User) : UserView :=
  ⟨u.id, u.name, u.email, u.status, u.createdAt, u.role, assignedCourseRefs st u⟩

/-- Build the credential-verification projection of a stored user. -/
def userAuthView (st : Store) (u : User) : UserAuthView :=
  ⟨u.id, u.name, u.email, u.password, u.status, u.role, assignedCourseRefs st u⟩

/-- Build the basic projection of a stored user. -/
def userBasicView (u : User) : UserBasicView :=
  ⟨u.id, u.name, u.email, u.status, u.createdAt, u.role⟩

/-- The field names of the `select` clause of `create` / `findAll` /
`findOne` / `update` (verbatim from the source). -/
def fullSelect : List String :=
  ["id", "name", "email", "status", "createdAt", "role", "assignedCourses"]

/-- The field names of the `select` clause of `findByEmail` (verbatim from
the source): it lists `password` and omits `createdAt`. -/
def findByEmailSelect : List String :=
  ["id", "name", "email", "password", "status", "role", "assignedCourses"]

/-- The field names of the `select` clause of `updateStatus` / `remove`
(verbatim from the source): no `assignedCourses`. -/
def basicSelect : List String :=
  ["id", "name", "email", "status", "createdAt", "role"]

/-- Modelled from the spec: the store's default for the status column on
insert ("status defaulting to the store's default"); the schema itself is
not part of the excerpt. -/
def storeDefaultStatus : String := "ACTIVE"

/-- Modelled from the spec: the store's default for the role column when the
optional role is absent from the creation input; the schema itself is not
part of the excerpt, and no claim depends on the particular member. -/
def storeDefaultRole : Role := Role.STUDENT

/-- The `NotFoundException` message thrown by the service. -/
def notFoundMsg (id : String) : String :=
  "User with ID " ++ id ++ " not found"

/-- Modelled from the spec: the store's uniqueness check on the email column
for a partial update of user `id` to email `e` — no other row may hold `e`. -/
def emailFreeFor (st : Store) (id : String) (e : String) : Bool :=
  st.users.all (fun v => decide (v.id = id) || !decide (v.email = e))

/-- `UsersService.create`: hash the password with cost 10, strip password and
assignedCourseIds from the data, insert the row; `assignedCourseIds?.length`
is truthy only for a present non-empty sequence, so only then are
associations connected.  The store-delegated failures (email uniqueness,
referential integrity of the connected course ids) leave the state
unchanged.  `newId` and `now` stand for the store-generated id and
creation timestamp. -/
def create (st : Store) (newId : String) (now : Int) (dto : CreateUserDto) :
    Except Err UserView × Store :=
  let hashedPassword := bcrypt_hash dto.password 10
  let connectIds : List String :=
    match dto.assignedCourseIds with
    | some ids => if ids.length ≠ 0 then ids else []
    | none => []
  if (lookupByEmail st dto.email).isSome then
    (.error .uniqueEmail, st)
  else if !coursesExist st connectIds then
    (.error .refIntegrity, st)
  else
    let u : User :=
      { id := newId, name := dto.name, email := dto.email,
        password := hashedPassword, role := dto.role.getD storeDefaultRole,
        status := storeDefaultStatus, createdAt := now,
        assignedCourseIds := connectIds }
    let st' : Store := { st with users := st.users ++ [u] }
    (.ok (userView st' u), st')

/-- `UsersService.findAll`: all users in the full projection, store order. -/
def findAll (st : Store) : List UserView :=
  st.users.map (userView st)

/-- `UsersService.findOne`: full projection, `NotFoundException` if absent. -/
def findOne (st : Store) (id : String) : Except Err UserView :=
  match lookup st id with
  | some u => .ok (userView st u)
  | none => .error (.notFound (notFoundMsg id))

/-- `UsersService.findByEmail`: returns the raw `findUnique` result (with the
password field selected); no exception — a missing record yields `none`. -/
def findByEmail (st : Store) (email : String) : Option UserAuthView :=
  (lookupByEmail st email).map (userAuthView st)

/-- The row-level effect of `UsersService.update`'s `data` object on the
matched user:
`...rest` spreads present name/email/role keys;
`...(status && { status })` writes the status string whenever the key is
present (enum members are non-empty strings, hence truthy);
`...(hashedPassword && { password })` re-hashes only when the given password
is truthy, i.e. a non-empty string;
`Array.isArray(assignedCourseIds)` holds exactly when the key is present
(empty sequence included), and then `set` replaces the association set. -/
def applyUpdate (dto : UpdateUserDto) (u : User) : User :=
  { u with
    name := dto.name.getD u.name,
    email := dto.email.getD u.email,
    role := dto.role.getD u.role,
    status := match dto.status with
      | some s => s.str
      | none => u.status,
    password := match dto.password with
      | some p => if p ≠ "" then bcrypt_hash p 10 else u.password
      | none => u.password,
    assignedCourseIds := dto.assignedCourseIds.getD u.assignedCourseIds }

/-- Modelled from the spec: the store's email-uniqueness precondition for an
`update` request — trivially met when the email key is absent. -/
def emailCheck (st : Store) (id : String) (dto : UpdateUserDto) : Bool :=
  match dto.email with
  | some e => emailFreeFor st id e
  | none => true

/-- The store after the `prisma.user.update` call of `UsersService.update`:
the matched row is rewritten by `applyUpdate`. -/
def updatedStore (st : Store) (id : String) (dto : UpdateUserDto) : Store :=
  { st with users := st.users.map (fun v => if v.id = id then applyUpdate dto v else v) }

/-- `UsersService.update`: existence check first (`NotFoundException`), then
one store call applying `applyUpdate`; the store-delegated failures
(referential integrity of a present `set` list, email uniqueness) leave the
state unchanged. -/
def update (st : Store) (id : String) (dto : UpdateUserDto) :
    Except Err UserView × Store :=
  match lookup st id with
  | none => (.error (.notFound (notFoundMsg id)), st)
  | some u =>
    if !coursesExist st (dto.assignedCourseIds.getD []) then
      (.error .refIntegrity, st)
    else if !emailCheck st id dto then
      (.error .uniqueEmail, st)
    else
      (.ok (userView (updatedStore st id dto) (applyUpdate dto u)),
       updatedStore st id dto)

/-- The store after the `prisma.user.update` call of
`UsersService.updateStatus`: only the status column of the matched row is
rewritten. -/
def statusStore (st : Store) (id : String) (status : String) : Store :=
  { st with users := st.users.map (fun v => if v.id = id then { v with status := status } else v) }

/-- `UsersService.updateStatus`: existence check first, then the status
column is overwritten with the supplied string — `status as UserStatus` is a
compile-time cast, so no runtime validation happens in the service.  Returns
the basic projection (no assignedCourses). -/
def updateStatus (st : Store) (id : String) (status : String) :
    Except Err UserBasicView × Store :=
  match lookup st id with
  | none => (.error (.notFound (notFoundMsg id)), st)
  | some u =>
    (.ok (userBasicView { u with status := status }), statusStore st id status)

/-- The lesson projection of `getUserCourses`. -/
structure LessonDetail where
  id : String
  title : String
  duration : Int
  order : Int
deriving DecidableEq, Repr

/-- The module projection of `getUserCourses`. -/
structure ModuleDetail where
  id : String
  title : String
  order : Int
  lessons : List LessonDetail
deriving DecidableEq, Repr

/-- The course projection of `getUserCourses`. -/
structure CourseDetail where
  id : String
  title : String
  description : String
  modules : List ModuleDetail
deriving DecidableEq, Repr

/-- Lesson select of `getUserCourses`: id, title, duration, order. -/
def lessonDetail (l : Lesson) : LessonDetail :=
  ⟨l.id, l.title, l.duration, l.order⟩

/-- Module select of `getUserCourses`: lessons ordered by `order` ascending. -/
def moduleDetail (m : CModule) : ModuleDetail :=
  ⟨m.id, m.title, m.order,
    (m.lessons.mergeSort (fun a b => decide (a.order ≤ b.order))).map lessonDetail⟩

/-- Course select of `getUserCourses`: modules ordered by `order` ascending. -/
def courseDetail (c : Course) : CourseDetail :=
  ⟨c.id, c.title, c.description,
    (c.modules.mergeSort (fun a b => decide (a.order ≤ b.order))).map moduleDetail⟩

/-- The user's associated courses ordered by `createdAt` descending, as the
store returns them to `getUserCourses`. -/
def userCoursesRaw (st : Store) (u : User) : List Course :=
  (st.courses.filter (fun c => u.assignedCourseIds.contains c.id)).mergeSort
    (fun a b => decide (b.createdAt ≤ a.createdAt))

/-- `UsersService.getUserCourses`: `NotFoundException` if the user is absent,
otherwise the `assignedCourses` of the nested ordered query. -/
def getUserCourses (st : Store) (userId : String) :
    Except Err (List CourseDetail) :=
  match lookup st userId with
  | none => .error (.notFound (notFoundMsg userId))
  | some u => .ok ((userCoursesRaw st u).map courseDetail)

/-- `UsersService.remove`: existence check first, then the row is deleted
(association rows detach with it); returns the basic projection of the
deleted record's final state. -/
def remove (st : Store) (id : String) : Except Err UserBasicView × Store :=
  match lookup st id with
  | none => (.error (.notFound (notFoundMsg id)), st)
  | some u =>
    (.ok (userBasicView u),
     { st with users := st.users.filter (fun v => !decide (v.id = id)) })

/-! ### Concrete fixtures

A small concrete store used by the witnesses and counterexamples: one user
`userAnn` associated with two courses whose creation times and module /
lesson order values are deliberately out of store order. -/

/-- A lesson with order value 2, stored before the order-1 lesson. -/
def lessonA : Lesson := ⟨"l1", "Intro video", 10, 2⟩

/-- A lesson with order value 1, stored after the order-2 lesson. -/
def lessonB : Lesson := ⟨"l2", "Welcome", 5, 1⟩

/-- A module with order value 2 holding both lessons out of order. -/
def moduleA : CModule := ⟨"m1", "Basics", 2, [lessonA, lessonB]⟩

/-- A module with order value 1, stored after the order-2 module. -/
def moduleB : CModule := ⟨"m2", "Setup", 1, []⟩

/-- The older course (createdAt 100), holding both modules out of order. -/
def courseA : Course := ⟨"cA", "Course A", "first course", 100, [moduleA, moduleB]⟩

/-- The newer course (createdAt 200). -/
def courseB : Course := ⟨"cB", "Course B", "second course", 200, []⟩

/-- A stored user associated with both courses. -/
def userAnn : User :=
  ⟨"u1", "Ann", "ann@x.com", bcrypt_hash "pw123" 10, .STUDENT, "ACTIVE", 50, ["cA", "cB"]⟩

/-- A second stored user with no course associations. -/
def userBen : User :=
  ⟨"u2", "Ben", "ben@x.com", bcrypt_hash "pw456" 10, .INSTRUCTOR, "INACTIVE", 60, []⟩

/-- The concrete store for witnesses: two users, two courses. -/
def store1 : Store := ⟨[userAnn, userBen], [courseA, courseB]⟩

/-- A concrete creation input referencing the existing course `cA`. -/
def dtoBob : CreateUserDto := ⟨"Bob", "bob@x.com", "secret", none, some ["cA"]⟩

/-! ### Helper lemmas -/

/-- A successful `findUnique` by id returns a row carrying that id. -/
theorem lookup_some_id {st : Store} {id : String} {u : User}
    (hu : lookup st id = some u) : u.id = id := by
  unfold lookup at hu
  have h := List.find?_some hu
  simpa using h

/-- A successful `findUnique` by id returns a row of the user table. -/
theorem lookup_some_mem {st : Store} {id : String} {u : User}
    (hu : lookup st id = some u) : u ∈ st.users := by
  unfold lookup at hu
  exact List.mem_of_find?_eq_some hu

/-- `findUnique` by id commutes with a row transformation that never touches
the id column. -/
theorem find?_map_of_id_preserved (users : List User) (id : String) (u : User)
    (g : User → User) (hg : ∀ v, (g v).id = v.id)
    (h : users.find? (fun v => decide (v.id = id)) = some u) :
    (users.map g).find? (fun v => decide (v.id = id)) = some (g u) := by
  rw [List.find?_map]
  have hpg : ((fun v => decide (v.id = id)) ∘ g) = (fun v => decide (v.id = id)) := by
    funext v
    simp [Function.comp, hg]
  rw [hpg, h]
  rfl

/-- `applyUpdate` never touches the id column. -/
theorem applyUpdate_id (dto : UpdateUserDto) (u : User) :
    (applyUpdate dto u).id = u.id := rfl

/-- `applyUpdate` never touches the createdAt column. -/
theorem applyUpdate_createdAt (dto : UpdateUserDto) (u : User) :
    (applyUpdate dto u).createdAt = u.createdAt := rfl

/-- The hash of a plaintext under cost 10 is never the plaintext itself (the
modelled hash prepends a seven-character tag). -/
theorem bcrypt_hash_ne_plain (p : String) : bcrypt_hash p 10 ≠ p := by
  intro h
  have hlen := congrArg String.length h
  rw [show bcrypt_hash p 10 = "$2b$10$" ++ p from rfl, String.length_append] at hlen
  have h7 : ("$2b$10$" : String).length = 7 := rfl
  omega

/-! ### Claim theorems -/

/-- Claim C3: the password field (the stored hash) is absent from every read
projection — its field name is not in the `select` list of
create/findAll/findOne/update nor of updateStatus/remove, and the
projections do not depend on the stored hash — with the single exception of
`findByEmail`, whose `select` lists `password` and whose result surfaces
exactly the stored hash. -/
theorem password_projection_confidentiality :
    ("password" ∉ fullSelect ∧ "password" ∉ basicSelect ∧
      "password" ∈ findByEmailSelect) ∧
    (∀ (st : Store) (u : User) (p : String),
      userView st { u with password := p } = userView st u) ∧
    (∀ (u : User) (p : String),
      userBasicView { u with password := p } = userBasicView u) ∧
    (∀ (st : Store) (e : String),
      (findByEmail st e).map UserAuthView.password =
        (lookupByEmail st e).map User.password) := by
  refine ⟨⟨by decide, by decide, by decide⟩, fun st u p => rfl, fun u p => rfl,
    fun st e => ?_⟩
  cases h : lookupByEmail st e <;> simp [findByEmail, h, userAuthView]

/-- Claim C5: for an id absent from the store, `findOne`, `update`,
`updateStatus`, `getUserCourses` and `remove` all fail with the NotFound
error and hand back the input store completely unchanged. -/
theorem missing_id_notFound_no_state_change (st : Store) (id : String)
    (h : lookup st id = none) :
    findOne st id = .error (.notFound (notFoundMsg id)) ∧
    getUserCourses st id = .error (.notFound (notFoundMsg id)) ∧
    (∀ dto : UpdateUserDto,
      update st id dto = (.error (.notFound (notFoundMsg id)), st)) ∧
    (∀ s : String,
      updateStatus st id s = (.error (.notFound (notFoundMsg id)), st)) ∧
    remove st id = (.error (.notFound (notFoundMsg id)), st) := by
  refine ⟨?_, ?_, fun dto => ?_, fun s => ?_, ?_⟩ <;>
    simp [findOne, getUserCourses, update, updateStatus, remove, h]

/-- Witness for C5 at the concrete store: id `zz` is absent and every
operation reports NotFound without touching the store. -/
theorem missing_id_notFound_no_state_change_witness :
    lookup store1 "zz" = none ∧
    remove store1 "zz" = (.error (.notFound (notFoundMsg "zz")), store1) ∧
    update store1 "zz" UpdateUserDto.empty =
      (.error (.notFound (notFoundMsg "zz")), store1) :=
  ⟨rfl, (missing_id_notFound_no_state_change store1 "zz" rfl).2.2.2.2,
    (missing_id_notFound_no_state_change store1 "zz" rfl).2.2.1 UpdateUserDto.empty⟩

/-- Claim C9: `findByEmail` on an email with no matching user returns the
empty result instead of an error, while the id-keyed lookups (`findOne`,
`getUserCourses`) raise NotFound on a missing record. -/
theorem findByEmail_missing_none (st : Store) (e id : String)
    (he : lookupByEmail st e = none) (hid : lookup st id = none) :
    findByEmail st e = none ∧
    findOne st id = .error (.notFound (notFoundMsg id)) ∧
    getUserCourses st id = .error (.notFound (notFoundMsg id)) := by
  refine ⟨?_, ?_, ?_⟩ <;> simp [findByEmail, he, findOne, getUserCourses, hid]

/-- Witness for C9 at the concrete store: no user holds email
`nobody@x.com` and no user holds id `zz`. -/
theorem findByEmail_missing_none_witness :
    lookupByEmail store1 "nobody@x.com" = none ∧ lookup store1 "zz" = none ∧
    findByEmail store1 "nobody@x.com" = none :=
  ⟨rfl, rfl, (findByEmail_missing_none store1 "nobody@x.com" "zz" rfl rfl).1⟩

/-- Claim C8: no operation changes a stored user's id or createdAt:
`update` and `updateStatus` preserve the (id, createdAt) column pair of
every row for every input, `create` keeps every existing row intact (its
row list is a sublist of the new one), and `remove` only ever drops rows
(its row list is a sublist of the old one). -/
theorem id_createdAt_immutable (st : Store) (id : String) (dto : UpdateUserDto)
    (s : String) (nid : String) (now : Int) (cdto : CreateUserDto) :
    ((update st id dto).2.users.map (fun u => (u.id, u.createdAt)) =
      st.users.map (fun u => (u.id, u.createdAt))) ∧
    ((updateStatus st id s).2.users.map (fun u => (u.id, u.createdAt)) =
      st.users.map (fun u => (u.id, u.createdAt))) ∧
    st.users.Sublist (create st nid now cdto).2.users ∧
    (remove st id).2.users.Sublist st.users := by
  refine ⟨?_, ?_, ?_, ?_⟩
  · unfold update
    cases h : lookup st id
    · rfl
    · dsimp only
      split
      · rfl
      · split
        · rfl
        · dsimp only [updatedStore]
          rw [List.map_map]
          apply List.map_congr_left
          intro v hv
          by_cases hid : v.id = id <;> simp [Function.comp, hid, applyUpdate]
  · unfold updateStatus
    cases h : lookup st id
    · rfl
    · dsimp only [statusStore]
      rw [List.map_map]
      apply List.map_congr_left
      intro v hv
      by_cases hid : v.id = id <;> simp [Function.comp, hid]
  · unfold create
    dsimp only
    split <;> try split
    all_goals try split
    all_goals
      first
        | exact List.Sublist.refl _
        | exact List.sublist_append_left _ _
  · unfold remove
    cases h : lookup st id
    · exact List.Sublist.refl _
    · exact List.filter_sublist _

/-- The row lookup after a successful `update` store call returns the row
rewritten by `applyUpdate`. -/
theorem lookup_updatedStore {st : Store} {id : String} {u : User}
    (dto : UpdateUserDto) (hu : lookup st id = some u) :
    lookup (updatedStore st id dto) id = some (applyUpdate dto u) := by
  have hg : ∀ v : User,
      ((fun v => if v.id = id then applyUpdate dto v else v) v).id = v.id := by
    intro v
    by_cases h : v.id = id <;> simp [h, applyUpdate_id]
  have hu' : st.users.find? (fun v => decide (v.id = id)) = some u := hu
  have hfind := find?_map_of_id_preserved st.users id u _ hg hu'
  show (st.users.map _).find? _ = _
  rw [hfind, lookup_some_id hu]
  simp

/-- On a present id and passing store checks, `update` succeeds with the
rewritten store and the full projection of the rewritten row. -/
theorem update_ok_eq {st : Store} {id : String} {u : User}
    (dto : UpdateUserDto) (hu : lookup st id = some u)
    (hok : coursesExist st (dto.assignedCourseIds.getD []) = true)
    (hmail : emailCheck st id dto = true) :
    update st id dto =
      (.ok (userView (updatedStore st id dto) (applyUpdate dto u)),
       updatedStore st id dto) := by
  unfold update
  rw [hu]
  simp [hok, hmail]

/-- The row lookup after the `updateStatus` store call returns the row with
only the status column rewritten. -/
theorem lookup_statusStore {st : Store} {id : String} {u : User}
    (s : String) (hu : lookup st id = some u) :
    lookup (statusStore st id s) id = some { u with status := s } := by
  have hg : ∀ v : User,
      ((fun v => if v.id = id then { v with status := s } else v) v).id = v.id := by
    intro v
    by_cases h : v.id = id <;> simp [h]
  have hu' : st.users.find? (fun v => decide (v.id = id)) = some u := hu
  have hfind := find?_map_of_id_preserved st.users id u _ hg hu'
  show (st.users.map _).find? _ = _
  rw [hfind, lookup_some_id hu]
  simp

/-- On a present id, `updateStatus` succeeds with the status-rewritten store
and the basic projection of the rewritten row, for any status string. -/
theorem updateStatus_ok_eq {st : Store} {id : String} {u : User}
    (s : String) (hu : lookup st id = some u) :
    updateStatus st id s =
      (.ok (userBasicView { u with status := s }), statusStore st id s) := by
  unfold updateStatus
  rw [hu]

/-- The empty update input rewrites nothing: every column keeps its value. -/
theorem applyUpdate_empty (u : User) : applyUpdate UpdateUserDto.empty u = u := rfl

/-- Claim C1: on a present id, an update whose input carries the
assignedCourseIds key (empty sequence included) replaces the stored
association set with exactly the given ids; an update whose input omits the
key leaves the stored association set untouched; and on a user with a
non-empty association set, `update(id, \x7bassignedCourseIds: []\x7d)` and
`update(id, \x7b\x7d)` produce observably different stored rows. -/
theorem update_assignedCourses_set_vs_omit (st : Store) (id : String)
    (u : User) (dto : UpdateUserDto) (ids : List String)
    (hu : lookup st id = some u)
    (hset : dto.assignedCourseIds = some ids)
    (hok : coursesExist st ids = true)
    (hmail : emailCheck st id dto = true) :
    (lookup (update st id dto).2 id = some (applyUpdate dto u) ∧
      (applyUpdate dto u).assignedCourseIds = ids) ∧
    (∀ dto' : UpdateUserDto, dto'.assignedCourseIds = none →
      emailCheck st id dto' = true →
      lookup (update st id dto').2 id = some (applyUpdate dto' u) ∧
      (applyUpdate dto' u).assignedCourseIds = u.assignedCourseIds) ∧
    (u.assignedCourseIds ≠ [] →
      lookup (update st id { UpdateUserDto.empty with
        assignedCourseIds := some [] }).2 id ≠
      lookup (update st id UpdateUserDto.empty).2 id) := by
  have hok' : coursesExist st (dto.assignedCourseIds.getD []) = true := by
    rw [hset]
    exact hok
  refine ⟨⟨?_, ?_⟩, fun dto' hset' hmail' => ⟨?_, ?_⟩, fun hne heq => ?_⟩
  · rw [update_ok_eq dto hu hok' hmail]
    exact lookup_updatedStore dto hu
  · simp [applyUpdate, hset]
  · have hok'' : coursesExist st (dto'.assignedCourseIds.getD []) = true := by
      rw [hset']
      rfl
    rw [update_ok_eq dto' hu hok'' hmail']
    exact lookup_updatedStore dto' hu
  · simp [applyUpdate, hset']
  · have h1 : lookup (update st id { UpdateUserDto.empty with
        assignedCourseIds := some [] }).2 id =
        some (applyUpdate { UpdateUserDto.empty with
          assignedCourseIds := some [] } u) := by
      rw [update_ok_eq { UpdateUserDto.empty with
        assignedCourseIds := some [] } hu rfl rfl]
      exact lookup_updatedStore _ hu
    have h2 : lookup (update st id UpdateUserDto.empty).2 id = some u := by
      rw [update_ok_eq UpdateUserDto.empty hu rfl rfl]
      rw [lookup_updatedStore _ hu, applyUpdate_empty]
    rw [h1, h2] at heq
    have h3 : (applyUpdate { UpdateUserDto.empty with
        assignedCourseIds := some [] } u).assignedCourseIds = [] := rfl
    have h4 := congrArg User.assignedCourseIds (Option.some.inj heq)
    rw [h3] at h4
    exact hne h4.symm

/-- Witness for C1 at the concrete store: clearing the associations of
`userAnn` (two assigned courses) stores the empty association set. -/
theorem update_assignedCourses_set_vs_omit_witness :
    lookup store1 "u1" = some userAnn ∧
    (lookup (update store1 "u1" { UpdateUserDto.empty with
        assignedCourseIds := some [] }).2 "u1" =
      some (applyUpdate { UpdateUserDto.empty with
        assignedCourseIds := some [] } userAnn) ∧
      (applyUpdate { UpdateUserDto.empty with
        assignedCourseIds := some [] } userAnn).assignedCourseIds = []) :=
  ⟨rfl, (update_assignedCourses_set_vs_omit store1 "u1" userAnn
    { UpdateUserDto.empty with assignedCourseIds := some [] } [] rfl rfl rfl rfl).1⟩

/-- Claim C7: on a present id and an enumeration member `s`,
`updateStatus` stores `s`, a subsequent `findOne` shows status `s` with
name, email and role (and createdAt) unchanged, and the `updateStatus`
projection has no assignedCourses field. -/
theorem updateStatus_frame (st : Store) (id : String) (u : User)
    (s : UserStatus) (hu : lookup st id = some u) :
    (updateStatus st id s.str).1 =
      .ok (userBasicView { u with status := s.str }) ∧
    "assignedCourses" ∉ basicSelect ∧
    (∃ v : UserView, findOne (updateStatus st id s.str).2 id = .ok v ∧
      v.status = s.str ∧ v.name = u.name ∧ v.email = u.email ∧
      v.role = u.role ∧ v.createdAt = u.createdAt) := by
  rw [updateStatus_ok_eq s.str hu]
  refine ⟨rfl, by decide,
    ⟨userView (statusStore st id s.str) { u with status := s.str }, ?_,
      rfl, rfl, rfl, rfl, rfl⟩⟩
  simp [findOne, lookup_statusStore s.str hu]

/-- Witness for C7 at the concrete store: banning `userAnn` stores status
`BANNED` and leaves her name, email and role intact. -/
theorem updateStatus_frame_witness :
    lookup store1 "u1" = some userAnn ∧
    (updateStatus store1 "u1" UserStatus.BANNED.str).1 =
      .ok (userBasicView { userAnn with status := UserStatus.BANNED.str }) :=
  ⟨rfl, (updateStatus_frame store1 "u1" userAnn UserStatus.BANNED rfl).1⟩

/-- Counterexample to claim C4 as stated: `updateStatus` does not reject a
status outside the enumeration — at the concrete store the out-of-enum
string `HACKED` is accepted and replaces the stored status. -/
theorem updateStatus_accepts_invalid_status :
    "HACKED" ∉ statusStrings ∧
    (updateStatus store1 "u1" "HACKED").1 =
      .ok ⟨"u1", "Ann", "ann@x.com", "HACKED", 50, Role.STUDENT⟩ ∧
    lookup (updateStatus store1 "u1" "HACKED").2 "u1" =
      some { userAnn with status := "HACKED" } := by
  refine ⟨by decide, rfl, ?_⟩
  rw [updateStatus_ok_eq "HACKED" (rfl : lookup store1 "u1" = some userAnn)]
  exact lookup_statusStore "HACKED" rfl

/-- Claim C4 amended: a status reaching `update` is an enumeration member by
the typing of `UpdateUserDto` (`@IsEnum(UserStatus)`, enforced by the
request validator before the service) and is stored as given; `updateStatus`
performs no validation at all — it stores any supplied string unchanged, the
cast `status as UserStatus` being compile-time only. -/
theorem status_validation_amended (st : Store) (id : String) (u : User)
    (hu : lookup st id = some u) :
    (∀ (dto : UpdateUserDto) (s : UserStatus), dto.status = some s →
      (applyUpdate dto u).status = s.str ∧ s.str ∈ statusStrings) ∧
    (∀ s : String,
      (updateStatus st id s).1 = .ok (userBasicView { u with status := s }) ∧
      lookup (updateStatus st id s).2 id = some { u with status := s }) := by
  refine ⟨fun dto s hs => ⟨by simp [applyUpdate, hs], ?_⟩, fun s => ?_⟩
  · cases s <;> simp [UserStatus.str, statusStrings]
  · rw [updateStatus_ok_eq s hu]
    exact ⟨rfl, lookup_statusStore s hu⟩

/-- Witness for the amended C4 at the concrete store: an update input
carrying status BANNED stores the enumeration string, and `updateStatus`
stores the arbitrary string `WHATEVER` unvalidated. -/
theorem status_validation_amended_witness :
    lookup store1 "u1" = some userAnn ∧
    (applyUpdate { UpdateUserDto.empty with status := some UserStatus.BANNED }
        userAnn).status = UserStatus.BANNED.str ∧
    lookup (updateStatus store1 "u1" "WHATEVER").2 "u1" =
      some { userAnn with status := "WHATEVER" } :=
  ⟨rfl,
    ((status_validation_amended store1 "u1" userAnn rfl).1
      { UpdateUserDto.empty with status := some UserStatus.BANNED }
      UserStatus.BANNED rfl).1,
    ((status_validation_amended store1 "u1" userAnn rfl).2 "WHATEVER").2⟩

/-- Claim C10: an update input whose password key is present but holds the
empty string re-hashes nothing — the stored hash of the targeted row is
unchanged whatever else the input holds — because the service gates
re-hashing on the truthiness of the value (`newPassword ? hash : undefined`);
a present non-empty password is re-hashed with cost 10. -/
theorem update_empty_password_no_rehash (st : Store) (id : String) (u : User)
    (dto : UpdateUserDto) (hu : lookup st id = some u)
    (hp : dto.password = some "") :
    (applyUpdate dto u).password = u.password ∧
    (lookup (update st id dto).2 id).map User.password = some u.password ∧
    (∀ (dto' : UpdateUserDto) (p : String), dto'.password = some p →
      p ≠ "" → (applyUpdate dto' u).password = bcrypt_hash p 10) := by
  have hpw : (applyUpdate dto u).password = u.password := by
    simp [applyUpdate, hp]
  refine ⟨hpw, ?_, fun dto' p hp' hne => by simp [applyUpdate, hp', hne]⟩
  cases hok : coursesExist st (dto.assignedCourseIds.getD [])
  · have h2 : (update st id dto).2 = st := by
      unfold update
      rw [hu]
      simp [hok]
    rw [h2, hu]
    rfl
  · cases hmail : emailCheck st id dto
    · have h2 : (update st id dto).2 = st := by
        unfold update
        rw [hu]
        simp [hok, hmail]
      rw [h2, hu]
      rfl
    · rw [update_ok_eq dto hu hok hmail]
      rw [lookup_updatedStore dto hu]
      simp [hpw]

/-- Sorting by an integer key ascending yields a pairwise-ascending list. -/
theorem pairwise_mergeSort_asc {α : Type} (f : α → Int) (l : List α) :
    (l.mergeSort (fun a b => decide (f a ≤ f b))).Pairwise
      (fun a b => f a ≤ f b) := by
  have htrans : ∀ a b c : α, decide (f a ≤ f b) = true →
      decide (f b ≤ f c) = true → decide (f a ≤ f c) = true := by
    intro a b c hab hbc
    exact decide_eq_true (le_trans (of_decide_eq_true hab) (of_decide_eq_true hbc))
  have htotal : ∀ a b : α, (decide (f a ≤ f b) || decide (f b ≤ f a)) = true := by
    intro a b
    rcases le_total (f a) (f b) with h | h <;> simp [h]
  exact (List.sorted_mergeSort htrans htotal l).imp (fun h => of_decide_eq_true h)

/-- Sorting by an integer key descending yields a pairwise-descending list. -/
theorem pairwise_mergeSort_desc {α : Type} (f : α → Int) (l : List α) :
    (l.mergeSort (fun a b => decide (f b ≤ f a))).Pairwise
      (fun a b => f b ≤ f a) := by
  have htrans : ∀ a b c : α, decide (f b ≤ f a) = true →
      decide (f c ≤ f b) = true → decide (f c ≤ f a) = true := by
    intro a b c hab hbc
    exact decide_eq_true (le_trans (of_decide_eq_true hbc) (of_decide_eq_true hab))
  have htotal : ∀ a b : α, (decide (f b ≤ f a) || decide (f a ≤ f b)) = true := by
    intro a b
    rcases le_total (f b) (f a) with h | h <;> simp [h]
  exact (List.sorted_mergeSort htrans htotal l).imp (fun h => of_decide_eq_true h)

/-- Claim C2: on a present user id, `getUserCourses` returns exactly the
user's associated courses (a permutation of the rows matching the
association set), ordered descending by course creation time, with each
course's modules pairwise ascending in their order value and each module's
lessons pairwise ascending in their order value. -/
theorem getUserCourses_ordering (st : Store) (userId : String) (u : User)
    (hu : lookup st userId = some u) :
    getUserCourses st userId = .ok ((userCoursesRaw st u).map courseDetail) ∧
    (userCoursesRaw st u).Perm
      (st.courses.filter (fun c => u.assignedCourseIds.contains c.id)) ∧
    (userCoursesRaw st u).Pairwise (fun a b => b.createdAt ≤ a.createdAt) ∧
    (∀ cd ∈ (userCoursesRaw st u).map courseDetail,
      cd.modules.Pairwise (fun a b => a.order ≤ b.order) ∧
      ∀ md ∈ cd.modules,
        md.lessons.Pairwise (fun a b => a.order ≤ b.order)) := by
  refine ⟨by simp [getUserCourses, hu], List.mergeSort_perm _ _,
    pairwise_mergeSort_desc Course.createdAt _, fun cd hcd => ?_⟩
  obtain ⟨c, hc, rfl⟩ := List.mem_map.1 hcd
  refine ⟨?_, fun md hmd => ?_⟩
  · exact List.Pairwise.map moduleDetail (fun a b h => h)
      (pairwise_mergeSort_asc CModule.order c.modules)
  · obtain ⟨m, hm, rfl⟩ := List.mem_map.1 hmd
    exact List.Pairwise.map lessonDetail (fun a b h => h)
      (pairwise_mergeSort_asc Lesson.order m.lessons)

/-- Witness for C2 at the concrete store: the query on `userAnn` succeeds
and equals the projection of the sorted associated courses. -/
theorem getUserCourses_ordering_witness :
    lookup store1 "u1" = some userAnn ∧
    getUserCourses store1 "u1" =
      .ok ((userCoursesRaw store1 userAnn).map courseDetail) :=
  ⟨rfl, (getUserCourses_ordering store1 "u1" userAnn rfl).1⟩

/-- Claim C6: on passing store checks, `create` stores only the cost-10 hash
of the given password — which differs from the plaintext — appends exactly
one row, and returns the projection of precisely id, name, email, status,
createdAt, role and the \x7bid, title\x7d shape of the associated courses. -/
theorem create_hashes_and_projects (st : Store) (newId : String) (now : Int)
    (dto : CreateUserDto)
    (hmail : lookupByEmail st dto.email = none)
    (hok : coursesExist st (dto.assignedCourseIds.getD []) = true) :
    ∃ (u : User) (st' : Store),
      create st newId now dto = (.ok (userView st' u), st') ∧
      st'.users = st.users ++ [u] ∧
      u.password = bcrypt_hash dto.password 10 ∧
      u.password ≠ dto.password ∧
      userView st' u = ⟨newId, dto.name, dto.email, storeDefaultStatus, now,
        dto.role.getD storeDefaultRole, assignedCourseRefs st' u⟩ ∧
      fullSelect = ["id", "name", "email", "status", "createdAt", "role",
        "assignedCourses"] := by
  have hok' : coursesExist st (match dto.assignedCourseIds with
      | some ids => if ids.length ≠ 0 then ids else []
      | none => []) = true := by
    cases h : dto.assignedCourseIds with
    | none => rfl
    | some ids =>
      by_cases hl : ids.length ≠ 0
      · rw [h] at hok
        simpa [hl] using hok
      · simp only [hl, if_false]
        rfl
  refine ⟨⟨newId, dto.name, dto.email, bcrypt_hash dto.password 10,
      dto.role.getD storeDefaultRole, storeDefaultStatus, now,
      match dto.assignedCourseIds with
      | some ids => if ids.length ≠ 0 then ids else []
      | none => []⟩,
    ⟨st.users ++ [⟨newId, dto.name, dto.email, bcrypt_hash dto.password 10,
      dto.role.getD storeDefaultRole, storeDefaultStatus, now,
      match dto.assignedCourseIds with
      | some ids => if ids.length ≠ 0 then ids else []
      | none => []⟩], st.courses⟩, ?_, rfl, rfl,
    bcrypt_hash_ne_plain dto.password, rfl, rfl⟩
  unfold create
  simp only [hmail, Option.isSome_none, Bool.false_eq_true, if_false, hok',
    Bool.not_true, ite_false]

/-- Witness for C6 at the concrete store: creating Bob with a reference to
the existing course `cA`. -/
theorem create_hashes_and_projects_witness :
    lookupByEmail store1 "bob@x.com" = none ∧
    coursesExist store1 ["cA"] = true ∧
    ∃ (u : User) (st' : Store),
      create store1 "u9" 300 dtoBob = (.ok (userView st' u), st') ∧
      st'.users = store1.users ++ [u] ∧
      u.password = bcrypt_hash dtoBob.password 10 ∧
      u.password ≠ dtoBob.password ∧
      userView st' u = ⟨"u9", dtoBob.name, dtoBob.email, storeDefaultStatus,
        300, dtoBob.role.getD storeDefaultRole, assignedCourseRefs st' u⟩ ∧
      fullSelect = ["id", "name", "email", "status", "createdAt", "role",
        "assignedCourses"] :=
  ⟨rfl, rfl, create_hashes_and_projects store1 "u9" 300 dtoBob rfl rfl⟩

/-- Witness for C10 at the concrete store: updating `userAnn` with an
empty-string password leaves her stored hash untouched. -/
theorem update_empty_password_no_rehash_witness :
    lookup store1 "u1" = some userAnn ∧
    (applyUpdate { UpdateUserDto.empty with password := some "" }
        userAnn).password = userAnn.password :=
  ⟨rfl, (update_empty_password_no_rehash store1 "u1" userAnn
    { UpdateUserDto.empty with password := some "" } rfl rfl).1⟩

end Pacelab
